import Mathlib

/-!
Verification of the Fear & Greed scoring engine (`app/main.py`).

The scoring engine is shallowly embedded: Python floats are modelled as
exact rationals, with an explicit tagged type `FVal` for the IEEE special
values (NaN, ±Infinity) where the source's behavior depends on them.
Values that the source leaves as NaN (e.g. an RSI over a too-short series)
are modelled as `Option` with `none` for NaN.  Network fetches are the
external collaborators; each transform is embedded as a pure function of
the fetched data, and a fallible fetch-plus-transform is an `Except`
value.
-/

namespace FearGreed

/-- A floating-point value as consumed by `percentile`: either a finite
number (modelled exactly as a rational) or one of the IEEE specials. -/
inductive FVal where
  | finite (q : ℚ)
  | nan
  | inf
  | neginf
  deriving DecidableEq, Repr

/-- IEEE `<=` as numpy evaluates `arr <= x`: any comparison with NaN is
false, `-inf <= y` holds for every non-NaN `y`, `x <= +inf` holds for
every non-NaN `x`, and finite values compare as rationals. -/
def fle : FVal → FVal → Bool
  | FVal.nan, _ => false
  | _, FVal.nan => false
  | FVal.neginf, _ => true
  | _, FVal.neginf => false
  | _, FVal.inf => true
  | FVal.inf, _ => false
  | FVal.finite p, FVal.finite q => decide (p ≤ q)

/-- `percentile(series_or_array, x)` from `app/main.py` (lines 58-65):
share of values `<= x`; `0.5` for an empty sample or a NaN/±Infinity `x`
(the emptiness test comes first, as in the source). -/
def percentile (sample : List FVal) (x : FVal) : ℚ :=
  if sample.isEmpty then 1/2
  else
    match x with
    | FVal.finite q => (sample.countP (fun a => fle a (FVal.finite q)) : ℚ) / sample.length
    | _ => 1/2

/-- Maximum of a list of rationals (`max(sample)`); `0` only for the
empty list, which the claims never use. -/
def listMax : List ℚ → ℚ
  | [] => 0
  | x :: xs => xs.foldl max x

/-- `np.clip(x, lo, hi)`: the lower bound is applied first, then the upper
bound. -/
def clip (x lo hi : ℚ) : ℚ := min (max x lo) hi

/-- The spec's `clamp(v, lo, hi)`: restriction of `v` to `[lo, hi]`, in the
usual `max lo (min v hi)` formulation. Stated from the spec's words, to be
compared with the source's `clip`. -/
def clampSpec (x lo hi : ℚ) : ℚ := max lo (min x hi)

/-! ## Weight vector and composite formula (`compute_fng`, lines 303-321) -/

/-- Weight of the RSI sub-score (`w["rsi"]`, line 303). -/
def w_rsi : ℚ := 25/100

/-- Weight of the momentum sub-score (`w["mom"]`, line 303). -/
def w_mom : ℚ := 20/100

/-- Weight of the volatility sub-score (`w["vol"]`, line 303). -/
def w_vol : ℚ := 15/100

/-- Weight of the volume-anomaly sub-score (`w["volm"]`, line 303). -/
def w_volm : ℚ := 15/100

/-- Weight of the funding sub-score (`w["funding"]`, line 303). -/
def w_funding : ℚ := 15/100

/-- Weight of the open-interest sub-score (`w["oi"]`, line 303). -/
def w_oi : ℚ := 10/100

/-- The composite index value (`fng`, lines 305-313): weighted sum of the
six sub-scores, then `np.clip(fng, 0, 100)`. -/
def fng_value (rsi mom vol volm funding oi : ℚ) : ℚ :=
  clip (w_rsi * rsi + w_mom * mom + w_vol * vol + w_volm * volm
        + w_funding * funding + w_oi * oi) 0 100

/-- The sentiment label (`label`, lines 315-321): chained conditional on
the clipped index value. -/
def label_of (fng : ℚ) : String :=
  if fng < 25 then "Extreme Fear"
  else if fng < 45 then "Fear"
  else if fng ≤ 55 then "Neutral"
  else if fng < 76 then "Greed"
  else "Extreme Greed"

/-! ## RSI sub-score (`compute_base_scores`, lines 207-209)

`RSIIndicator(df["c"], window=14).rsi()` (package `ta`) computes
`diff = close.diff(1)`, replaces the leading NaN by `0.0` via
`diff.where(diff > 0, 0.0)` / `-diff.where(diff < 0, -0.0)`, smooths both
with `ewm(alpha=1/14, min_periods=14, adjust=False).mean()`, and sets
`rsi = where(emadn == 0, 100, 100 - 100/(1 + emaup/emadn))`.
`min_periods=14` leaves the first 13 positions NaN, so the last value —
the one `compute_base_scores` takes — is NaN whenever the series has
fewer than 14 closes; NaN is modelled as `none`. -/

/-- `close.diff(1)` without its leading NaN: consecutive differences. -/
def diffs : List ℚ → List ℚ
  | [] => []
  | [_] => []
  | a :: b :: rest => (b - a) :: diffs (b :: rest)

/-- `up_direction = diff.where(diff > 0, 0.0)`: the leading NaN becomes
`0.0` (NaN > 0 is false) and negative moves become `0.0`. Empty for an
empty close series. -/
def gains (closes : List ℚ) : List ℚ :=
  if closes.isEmpty then []
  else 0 :: (diffs closes).map (fun d => if 0 < d then d else 0)

/-- `down_direction = -diff.where(diff < 0, -0.0)`. -/
def losses (closes : List ℚ) : List ℚ :=
  if closes.isEmpty then []
  else 0 :: (diffs closes).map (fun d => if d < 0 then -d else 0)

/-- Last value of `xs.ewm(alpha=α, adjust=False).mean()`:
`y₀ = x₀`, `yᵢ = (1-α)·yᵢ₋₁ + α·xᵢ`; `none` for an empty series. -/
def ewmLast (α : ℚ) : List ℚ → Option ℚ
  | [] => none
  | x :: xs => some (xs.foldl (fun y v => (1 - α) * y + α * v) x)

/-- `float(rsi_series.iloc[-1])` (line 208): the last RSI value, `none`
when it is NaN (series shorter than the 14-period window, by
`min_periods=14`) or the series is empty (where `.iloc[-1]` raises). -/
def rsi_last (closes : List ℚ) : Option ℚ :=
  if closes.length < 14 then none
  else
    match ewmLast (1/14) (gains closes), ewmLast (1/14) (losses closes) with
    | some emaup, some emadn =>
        some (if emadn = 0 then 100 else 100 - 100 / (1 + emaup / emadn))
    | _, _ => none

/-- `score_rsi = float(np.clip((rsi - 30.0) / 40.0 * 100.0, 0, 100))`
(line 209); `np.clip` maps NaN to NaN, so `none` propagates. -/
def score_rsi (closes : List ℚ) : Option ℚ :=
  (rsi_last closes).map (fun rsi => clip ((rsi - 30) / 40 * 100) 0 100)

/-! ## Volatility sub-score direction adjustment (lines 219-220) -/

/-- `score_vol = (1.0 - p_vol) * 100.0` (line 219): the base volatility
sub-score from the percentile rank `p_vol` of the current rolling stdev. -/
def score_vol_of (p_vol : ℚ) : ℚ := (1 - p_vol) * 100

/-- `score_volx = 0.5 * score_vol + 0.5 * (100.0 - score_vol if r1 < 0
else score_vol)` (line 220): the direction-adjusted volatility sub-score
as a function of the base score and the latest single-period return. -/
def score_volx (score_vol r1 : ℚ) : ℚ :=
  1/2 * score_vol + 1/2 * (if r1 < 0 then 100 - score_vol else score_vol)

/-! ## Open-interest sub-score (`compute_oi_score`, lines 247-274)

The transform is a pure function of the fetched `sumOpenInterest` column,
modelled as a list of rationals (most recent last). -/

/-- Insert into a sorted list, keeping order. -/
def insertSorted (x : ℚ) : List ℚ → List ℚ
  | [] => [x]
  | y :: ys => if x ≤ y then x :: y :: ys else y :: insertSorted x ys

/-- Sort a list of rationals ascending (insertion sort). -/
def sortQ (l : List ℚ) : List ℚ := l.foldr insertSorted []

/-- Median as pandas computes it over a window of non-NaN values: middle
element of the sorted list, or the mean of the two middle elements for an
even length. Junk value `0` for the empty list (never used). -/
def medianQ (l : List ℚ) : ℚ :=
  let s := sortQ l
  let n := s.length
  if n % 2 = 1 then s.getD (n / 2) 0
  else (s.getD (n / 2 - 1) 0 + s.getD (n / 2) 0) / 2

/-- The last `k` elements of a list (a trailing rolling window). -/
def lastN (k : ℕ) (l : List ℚ) : List ℚ := l.drop (l.length - k)

/-- `float(oi.rolling(30, min_periods=5).median().iloc[-1])` (line 257):
median of the trailing 30-value window, NaN (`none`) when fewer than 5
observations exist. -/
def rollMed30Last (oi : List ℚ) : Option ℚ :=
  if 5 ≤ oi.length then some (medianQ (lastN 30 oi)) else none

/-- One entry of `(oi - oi.shift(1)) / oi.shift(1)` after `.dropna()`
(line 260): for a zero previous value, pandas produces ±Infinity (kept by
`dropna`) or NaN for `0/0` (dropped). -/
def oiDeltaStep (prev cur : ℚ) : Option FVal :=
  if prev = 0 then
    if cur = 0 then none
    else if 0 < cur then some FVal.inf
    else some FVal.neginf
  else some (FVal.finite ((cur - prev) / prev))

/-- `d_hist = ((oi - oi.shift(1)) / oi.shift(1)).dropna()` (line 260):
period-over-period relative changes. -/
def dHist : List ℚ → List FVal
  | [] => []
  | [_] => []
  | a :: b :: rest =>
    match oiDeltaStep a b with
    | some v => v :: dHist (b :: rest)
    | none => dHist (b :: rest)

/-- The dictionary returned by `compute_oi_score`; the last three keys are
absent (`none`) in the empty-series early return. -/
structure OiResult where
  oi : ℚ
  oi_delta : ℚ
  oi_cur : ℚ
  oi_p : Option ℚ
  oi_delta_val : Option ℚ
  oi_delta_p : Option ℚ
  deriving DecidableEq, Repr

/-- `compute_oi_score` (lines 247-274) as a function of the fetched
`sumOpenInterest` series: early neutral return for an empty series,
otherwise the 0.6/0.4 blend of the level percentile and the delta
percentile. -/
def compute_oi_score (oi : List ℚ) : OiResult :=
  if oi.isEmpty then ⟨50, 50, 0, none, none, none⟩
  else
    let oi_cur := oi.getLastD 0
    let p_oi := percentile (oi.map FVal.finite) (FVal.finite oi_cur)
    let med := rollMed30Last oi
    let d_rel : ℚ :=
      match med with
      | some m => if 0 < m then (oi_cur - m) / m else 0
      | none => 0
    let dh := dHist oi
    let p_delta := if dh.isEmpty then 1/2 else percentile dh (FVal.finite d_rel)
    let score_oi := p_oi * 100
    let score_oid := p_delta * 100
    ⟨6/10 * score_oi + 4/10 * score_oid, score_oid, oi_cur,
     some p_oi, some d_rel, some p_delta⟩

/-! ## Composite (`compute_fng`, lines 280-343)

The price-series fetch is required (its failure aborts the request), and
the four base sub-scores are pure functions of it; funding and
open-interest are fetched independently and each `try/except` substitutes
a neutral fallback. The composite is modelled as a function of the four
base sub-scores and the two fallible results, an `Except` value standing
for "the computation raised". -/

/-- The four sub-scores `compute_base_scores` derives from the price
series (dict keys `rsi`, `mom`, `vol`, `volm`). -/
structure BaseScores where
  rsi : ℚ
  mom : ℚ
  vol : ℚ
  volm : ℚ
  deriving DecidableEq, Repr

/-- The fallback `oi_pack` built in the `except` branch of `compute_fng`
(lines 293-300). -/
def oiFallbackPack : OiResult := ⟨50, 50, 0, some (1/2), some 0, some (1/2)⟩

/-- The result of `compute_fng`: index value, label, and the funding and
open-interest components actually used. -/
structure FngResult where
  value : ℚ
  label : String
  score_funding : ℚ
  funding_cur : ℚ
  funding_p : ℚ
  oi_pack : OiResult
  score_oi : ℚ
  deriving DecidableEq, Repr

/-- `compute_fng` (lines 280-343) after the fetches: the funding triple
`(score, rate, rank)` falls back to `(50.0, 0.0, 0.5)` when
`compute_funding_score` raises (lines 284-287), the OI pack falls back to
the neutral dictionary when `compute_oi_score` raises (lines 289-301),
and the six sub-scores are blended and clipped (lines 303-321). -/
def compute_fng (base : BaseScores) (funding : Except Unit (ℚ × ℚ × ℚ))
    (oiRes : Except Unit OiResult) : FngResult :=
  let f := match funding with
    | Except.ok v => v
    | Except.error _ => (50, 0, 1/2)
  let op := match oiRes with
    | Except.ok p => p
    | Except.error _ => oiFallbackPack
  let s_oi := match oiRes with
    | Except.ok p => p.oi
    | Except.error _ => (50 : ℚ)
  let fng := fng_value base.rsi base.mom base.vol base.volm f.1 s_oi
  ⟨fng, label_of fng, f.1, f.2.1, f.2.2, op, s_oi⟩

/-! ## Helper lemmas -/

lemma le_foldl_max (b : ℚ) (l : List ℚ) : b ≤ l.foldl max b := by
  induction l generalizing b with
  | nil => exact le_refl b
  | cons x xs ih => exact le_trans (le_max_left b x) (ih (max b x))

lemma mem_le_foldl_max (a b : ℚ) (l : List ℚ) (h : a ∈ l) : a ≤ l.foldl max b := by
  induction l generalizing b with
  | nil => cases h
  | cons x xs ih =>
    rcases List.mem_cons.mp h with rfl | hx
    · exact le_trans (le_max_right b a) (le_foldl_max (max b a) xs)
    · exact ih (max b x) hx

lemma mem_le_listMax (a : ℚ) (l : List ℚ) (h : a ∈ l) : a ≤ listMax l := by
  cases l with
  | nil => cases h
  | cons x xs =>
    rcases List.mem_cons.mp h with rfl | hx
    · exact le_foldl_max a xs
    · exact mem_le_foldl_max a x xs hx

lemma percentile_nonneg (sample : List FVal) (x : FVal) : 0 ≤ percentile sample x := by
  unfold percentile
  split
  · norm_num
  · cases x <;> simp
    all_goals exact div_nonneg (Nat.cast_nonneg _) (Nat.cast_nonneg _)

lemma percentile_le_one (sample : List FVal) (x : FVal) : percentile sample x ≤ 1 := by
  unfold percentile
  split
  · norm_num
  next hne =>
    have hpos : (0 : ℚ) < sample.length := by
      have h0 : sample ≠ [] := by
        intro h
        exact hne (by simp [h])
      have h1 : 0 < sample.length := List.length_pos.mpr h0
      exact_mod_cast h1
    cases x <;> try norm_num
    case finite q =>
      rw [div_le_one hpos]
      exact_mod_cast sample.countP_le_length _

lemma fng_value_nonneg (rsi mom vol volm funding oi : ℚ) :
    0 ≤ fng_value rsi mom vol volm funding oi :=
  le_min (le_max_right _ 0) (by norm_num)

lemma fng_value_le_100 (rsi mom vol volm funding oi : ℚ) :
    fng_value rsi mom vol volm funding oi ≤ 100 :=
  min_le_right _ 100

lemma clip_eq_clampSpec (x : ℚ) : clip x 0 100 = clampSpec x 0 100 := by
  unfold clip clampSpec
  rcases le_total x 0 with h0 | h0
  · rw [max_eq_right h0, min_eq_left (by norm_num : (0 : ℚ) ≤ 100),
      min_eq_left (le_trans h0 (by norm_num)), max_eq_left h0]
  · rcases le_total x 100 with h1 | h1
    · rw [max_eq_left h0, min_eq_left h1, max_eq_right h0]
    · rw [max_eq_left (le_trans (by norm_num) h1), min_eq_right h1,
        max_eq_right (by norm_num : (0 : ℚ) ≤ 100)]

lemma percentile_mono_finite (sample : List FVal) {q1 q2 : ℚ} (h : q1 ≤ q2) :
    percentile sample (FVal.finite q1) ≤ percentile sample (FVal.finite q2) := by
  unfold percentile
  split
  · exact le_refl _
  next hne =>
    have hpos : (0 : ℚ) < sample.length := by
      have h0 : sample ≠ [] := by
        intro hh
        exact hne (by simp [hh])
      exact_mod_cast List.length_pos.mpr h0
    apply (div_le_div_iff_of_pos_right hpos).mpr
    have hcount : sample.countP (fun a => fle a (FVal.finite q1))
        ≤ sample.countP (fun a => fle a (FVal.finite q2)) := by
      apply List.countP_mono_left
      intro a _ ha
      cases a with
      | finite p =>
        simp only [fle, decide_eq_true_eq] at ha ⊢
        exact le_trans ha h
      | nan => simp [fle] at ha
      | inf => simp [fle] at ha
      | neginf => simp [fle]
    exact_mod_cast hcount

/-! ## Claims -/

/-- C1: `percentile` returns `0.5` when the sample is empty or `x` is NaN
or ±Infinity; otherwise it returns the fraction of sample elements that
are `≤ x` (inclusive comparison), and in every case the result lies in
`[0, 1]`. -/
theorem C1_percentile_neutral_fraction_bounds (sample : List FVal) (x : FVal) :
    (sample = [] → percentile sample x = 1/2) ∧
    (percentile sample FVal.nan = 1/2 ∧ percentile sample FVal.inf = 1/2 ∧
      percentile sample FVal.neginf = 1/2) ∧
    (∀ q : ℚ, sample ≠ [] →
      percentile sample (FVal.finite q)
        = (sample.countP (fun a => fle a (FVal.finite q)) : ℚ) / sample.length) ∧
    (0 ≤ percentile sample x ∧ percentile sample x ≤ 1) := by
  refine ⟨?_, ⟨?_, ?_, ?_⟩, ?_, percentile_nonneg sample x, percentile_le_one sample x⟩
  · intro h
    simp [percentile, h]
  · cases sample <;> rfl
  · cases sample <;> rfl
  · cases sample <;> rfl
  · intro q hne
    have he : sample.isEmpty = false := by
      cases sample
      · exact absurd rfl hne
      · rfl
    simp [percentile, he]

/-- C1 witness: the theorem applied to concrete inputs, discharging the
emptiness and non-emptiness hypotheses. -/
theorem C1_percentile_neutral_fraction_bounds_witness :
    percentile [] (FVal.finite 7) = 1/2 ∧
    percentile [FVal.finite 1, FVal.finite 2] (FVal.finite 1)
      = (([FVal.finite 1, FVal.finite 2].countP
            (fun a => fle a (FVal.finite 1))) : ℚ)
        / ([FVal.finite 1, FVal.finite 2] : List FVal).length :=
  ⟨(C1_percentile_neutral_fraction_bounds [] (FVal.finite 7)).1 rfl,
   (C1_percentile_neutral_fraction_bounds [FVal.finite 1, FVal.finite 2]
      (FVal.finite 1)).2.2.1 1 (by decide)⟩

/-- C2: the composite index value equals `clamp(Σ weightᵢ·subscoreᵢ, 0, 100)`
with the fixed weight vector, and is therefore always in `[0, 100]`. -/
theorem C2_fng_value_clamped (rsi mom vol volm funding oi : ℚ) :
    fng_value rsi mom vol volm funding oi
      = clampSpec (w_rsi * rsi + w_mom * mom + w_vol * vol + w_volm * volm
          + w_funding * funding + w_oi * oi) 0 100 ∧
    0 ≤ fng_value rsi mom vol volm funding oi ∧
    fng_value rsi mom vol volm funding oi ≤ 100 :=
  ⟨clip_eq_clampSpec _, fng_value_nonneg rsi mom vol volm funding oi,
   fng_value_le_100 rsi mom vol volm funding oi⟩

/-- C3: the weight vector is the fixed constant vector rsi=0.25,
momentum=0.20, volatility=0.15, volume=0.15, funding=0.15,
open-interest=0.10, and its entries sum to exactly 1. -/
theorem C3_weights_fixed_sum_one :
    w_rsi = 25/100 ∧ w_mom = 20/100 ∧ w_vol = 15/100 ∧ w_volm = 15/100 ∧
    w_funding = 15/100 ∧ w_oi = 10/100 ∧
    w_rsi + w_mom + w_vol + w_volm + w_funding + w_oi = 1 := by
  refine ⟨rfl, rfl, rfl, rfl, rfl, rfl, ?_⟩
  norm_num [w_rsi, w_mom, w_vol, w_volm, w_funding, w_oi]

/-- C4: over `[0, 100]` the sentiment label follows the boundary table
`<25` Extreme Fear, `[25,45)` Fear, `[45,55]` Neutral, `(55,76)` Greed,
`≥76` Extreme Greed; in particular the boundary points 25, 45, 55, 76 map
to Fear, Neutral, Neutral, Extreme Greed. -/
theorem C4_label_boundary_table :
    (∀ fng : ℚ, 0 ≤ fng → fng ≤ 100 →
      ((fng < 25 → label_of fng = "Extreme Fear") ∧
       (25 ≤ fng → fng < 45 → label_of fng = "Fear") ∧
       (45 ≤ fng → fng ≤ 55 → label_of fng = "Neutral") ∧
       (55 < fng → fng < 76 → label_of fng = "Greed") ∧
       (76 ≤ fng → label_of fng = "Extreme Greed"))) ∧
    label_of 25 = "Fear" ∧ label_of 45 = "Neutral" ∧
    label_of 55 = "Neutral" ∧ label_of 76 = "Extreme Greed" := by
  constructor
  · intro fng _ _
    refine ⟨?_, ?_, ?_, ?_, ?_⟩ <;> intros <;> unfold label_of <;> split_ifs <;>
      first
      | rfl
      | linarith
  · refine ⟨?_, ?_, ?_, ?_⟩ <;> norm_num [label_of]

/-- C4 witness: the boundary table applied at a concrete in-range value. -/
theorem C4_label_boundary_table_witness : label_of 10 = "Extreme Fear" :=
  (C4_label_boundary_table.1 10 (by norm_num) (by norm_num)).1 (by norm_num)

/-- C5: on any price series shorter than the 14-period window the code
does NOT raise a `DataInsufficient` error; the `ta` RSI is NaN there
(`min_periods=14`), so `score_rsi` silently propagates an undefined
(NaN) score, contradicting the claim's required explicit signaling. -/
theorem C5_rsi_short_series_silent_nan (closes : List ℚ)
    (h : closes.length < 14) : score_rsi closes = none := by
  simp [score_rsi, rsi_last, h]

/-- C5 witness: a concrete 3-candle series yields the undefined (NaN)
score. -/
theorem C5_rsi_short_series_silent_nan_witness : score_rsi [100, 101, 102] = none :=
  C5_rsi_short_series_silent_nan [100, 101, 102] (by simp)

/-- C6: when the funding-score computation raises, `compute_fng`
substitutes exactly `score_funding = 50`, rate `0`, rank `0.5`, does not
abort, and the index value is still in `[0, 100]`. -/
theorem C6_funding_failure_neutral_fallback (base : BaseScores)
    (oiRes : Except Unit OiResult) :
    (compute_fng base (Except.error ()) oiRes).score_funding = 50 ∧
    (compute_fng base (Except.error ()) oiRes).funding_cur = 0 ∧
    (compute_fng base (Except.error ()) oiRes).funding_p = 1/2 ∧
    0 ≤ (compute_fng base (Except.error ()) oiRes).value ∧
    (compute_fng base (Except.error ()) oiRes).value ≤ 100 :=
  ⟨rfl, rfl, rfl, fng_value_nonneg _ _ _ _ _ _, fng_value_le_100 _ _ _ _ _ _⟩

/-- C7: an empty open-interest series yields exactly the neutral defaults
`oi = 50`, `oi_delta = 50`, `oi_cur = 0` (and no further diagnostics),
without failing. -/
theorem C7_oi_empty_neutral_defaults :
    compute_oi_score [] = ⟨50, 50, 0, none, none, none⟩ := rfl

/-- C8: the direction-adjusted volatility sub-score equals
`0.5·base + 0.5·(100 − base)` when the latest return is negative, and
equals the base score unchanged when it is nonnegative. -/
theorem C8_volx_direction_adjustment (base r1 : ℚ) :
    (r1 < 0 → score_volx base r1 = 1/2 * base + 1/2 * (100 - base)) ∧
    (0 ≤ r1 → score_volx base r1 = base) := by
  constructor
  · intro h
    simp [score_volx, h]
  · intro h
    have hn : ¬ r1 < 0 := not_lt.mpr h
    simp only [score_volx, if_neg hn]
    ring

/-- C8 witness: both branches at concrete inputs. -/
theorem C8_volx_direction_adjustment_witness :
    score_volx 70 (-1) = 1/2 * 70 + 1/2 * (100 - 70) ∧ score_volx 70 2 = 70 :=
  ⟨(C8_volx_direction_adjustment 70 (-1)).1 (by norm_num),
   (C8_volx_direction_adjustment 70 2).2 (by norm_num)⟩

/-- C9: for a fixed non-empty sample of finite values, `percentile` is
monotone non-decreasing in the finite argument, and the rank of the
sample maximum is exactly `1`. -/
theorem C9_percentile_monotone_and_max (l : List ℚ) (hne : l ≠ []) :
    (∀ q1 q2 : ℚ, q1 ≤ q2 →
      percentile (l.map FVal.finite) (FVal.finite q1)
        ≤ percentile (l.map FVal.finite) (FVal.finite q2)) ∧
    percentile (l.map FVal.finite) (FVal.finite (listMax l)) = 1 := by
  constructor
  · intro q1 q2 h
    exact percentile_mono_finite (l.map FVal.finite) h
  · have he : (l.map FVal.finite).isEmpty = false := by
      cases l
      · exact absurd rfl hne
      · rfl
    have hall : (l.map FVal.finite).countP
        (fun a => fle a (FVal.finite (listMax l))) = (l.map FVal.finite).length := by
      apply List.countP_eq_length.mpr
      intro a ha
      rcases List.mem_map.mp ha with ⟨b, hb, rfl⟩
      simp only [fle, decide_eq_true_eq]
      exact mem_le_listMax b l hb
    have hpos : (0 : ℚ) < (l.map FVal.finite).length := by
      have h0 : l.map FVal.finite ≠ [] := by
        cases l
        · exact absurd rfl hne
        · simp
      exact_mod_cast List.length_pos.mpr h0
    simp only [percentile, he, Bool.false_eq_true, if_false, hall]
    exact div_self (ne_of_gt hpos)

/-- C9 witness: monotonicity and max-rank on the concrete sample
`[1, 2, 3]`. -/
theorem C9_percentile_monotone_and_max_witness :
    percentile ([1, 2, 3].map FVal.finite) (FVal.finite 1)
      ≤ percentile ([1, 2, 3].map FVal.finite) (FVal.finite 2) ∧
    percentile ([1, 2, 3].map FVal.finite) (FVal.finite (listMax [1, 2, 3])) = 1 :=
  ⟨(C9_percentile_monotone_and_max [1, 2, 3] (by simp)).1 1 2 (by norm_num),
   (C9_percentile_monotone_and_max [1, 2, 3] (by simp)).2⟩

/-- C10: whenever the latest return is negative the adjusted volatility
sub-score is exactly `50`, independent of the base score: the relative
volatility signal is discarded on any down move. -/
theorem C10_volx_down_move_constant_50 (base r1 : ℚ) (h : r1 < 0) :
    score_volx base r1 = 50 := by
  simp only [score_volx, if_pos h]
  ring

/-- C10 witness: a concrete down move with a non-neutral base score. -/
theorem C10_volx_down_move_constant_50_witness : score_volx 87 (-3) = 50 :=
  C10_volx_down_move_constant_50 87 (-3) (by norm_num)

end FearGreed
